import Mathlib

/-!
Verification of the WASIO request-dispatch runtime (`src/main.go`) against its
natural-language specification.

The Go code is shallowly embedded: Go maps become association lists,
`time.Time` becomes `Int` (nanoseconds), `[]byte` becomes `List Nat`,
`time.Duration` becomes `Int` (nanoseconds).  Each definition cites the
function in `main.go` it translates.
-/

set_option autoImplicit false

namespace WASIO

/-! ### Association lists (the embedding of Go maps)

`lookupA` returns the value of the first entry with the given key;
`insertA` replaces the value of an existing key or appends a new entry,
which is the effect of Go's `m[k] = v`.  From an empty map the keys stay
unique, so "first entry" coincides with "the entry". -/

def lookupA {α : Type} (k : String) : List (String × α) → Option α
  | [] => none
  | (k', v) :: t => if k' = k then some v else lookupA k t

def insertA {α : Type} (k : String) (v : α) : List (String × α) → List (String × α)
  | [] => [(k, v)]
  | (k', v') :: t => if k' = k then (k, v) :: t else (k', v') :: insertA k v t

theorem lookupA_insertA_self {α : Type} (k : String) (v : α) (l : List (String × α)) :
    lookupA k (insertA k v l) = some v := by
  induction l with
  | nil => simp [insertA, lookupA]
  | cons h t ih =>
      obtain ⟨k', v'⟩ := h
      by_cases hk : k' = k
      · simp [insertA, hk, lookupA]
      · simp [insertA, hk, lookupA, ih]

theorem length_insertA_le {α : Type} (k : String) (v : α) (l : List (String × α)) :
    (insertA k v l).length ≤ l.length + 1 := by
  induction l with
  | nil => simp [insertA]
  | cons h t ih =>
      obtain ⟨k', v'⟩ := h
      by_cases hk : k' = k
      · simp [insertA, hk]
      · simp only [insertA, hk, if_false, List.length_cons]
        omega

/-! ### Response cache (`ResponseCache`, main.go lines 252-305)

`cachedResponse` stores a payload and its expiration time (lines 252-256).
`ResponseCache.get` (lines 274-288) misses when the entry is absent or
`time.Now().After(expiresAt)` holds, i.e. when `now > expiresAt`.
`ResponseCache.set` (lines 292-305) first evicts one arbitrary entry when
`len(cache) >= size` (modelled as dropping the head entry, the first entry
the Go `range` yields) and then stores the entry with
`expiresAt = now + ttl` — unconditionally, whatever `ttl` is. -/

structure CachedResponse where
  data : List Nat
  expiresAt : Int
  deriving Repr, DecidableEq

structure ResponseCache where
  cache : List (String × CachedResponse)
  size : Nat
  deriving Repr, DecidableEq

namespace ResponseCache

def get (r : ResponseCache) (key : String) (now : Int) : Option (List Nat) :=
  match lookupA key r.cache with
  | none => none
  | some cr => if now > cr.expiresAt then none else some cr.data

def set (r : ResponseCache) (key : String) (data : List Nat) (ttl now : Int) :
    ResponseCache :=
  let c := if r.cache.length ≥ r.size then r.cache.tail else r.cache
  { r with cache := insertA key ⟨data, now + ttl⟩ c }

end ResponseCache

/-! ### Compiled-module cache map update (`ModuleCache`, main.go lines 194-250)

The compiled modules themselves are opaque engine artifacts; the map from
`wasmPath` to compiled module is embedded with modules as abstract tokens
(`Nat`).  `ModuleCache.insert` translates lines 239-248 of `Get`: under the
write lock, evict one arbitrary entry when `len(cache) >= size` (modelled
as the head entry) and store the freshly compiled module. -/

structure ModuleCache where
  cache : List (String × Nat)
  size : Nat
  deriving Repr, DecidableEq

namespace ModuleCache

def insert (m : ModuleCache) (wasmPath : String) (mod : Nat) : ModuleCache :=
  let c := if m.cache.length ≥ m.size then m.cache.tail else m.cache
  { m with cache := insertA wasmPath mod c }

/-- Cache-state effect of `ModuleCache.Get` (lines 215-250): on hit the map is
unchanged; on miss the compiled module (produced externally by the engine,
here the token `mod`) is inserted.  The I/O or compile error path leaves the
map unchanged as well. -/
def getStep (m : ModuleCache) (wasmPath : String) (mod : Nat) : ModuleCache :=
  match lookupA wasmPath m.cache with
  | some _ => m
  | none => m.insert wasmPath mod

end ModuleCache

/-! ### Routes and configuration (`Route`, `Config`, `LoadConfig`, main.go 128-192)

Display-only metadata (`description`, `category`, `example`, used solely by
the HTML index page) is elided; the dispatch path never reads it.
`applyDefaults` translates the defaulting logic of `LoadConfig`
(lines 171-190) applied after JSON parsing: empty port becomes "8080",
`CacheTTL <= 0` becomes 300, `CacheSize <= 0` becomes 1024, and
`index_page` / `monitoring` default to `true` only when the raw JSON did
not set them (presence is passed in as `rawHasIndexPage` /
`rawHasMonitoring`). -/

structure Route where
  wasmFile : String
  cache : Bool
  ttl : Int
  fsMount : String
  fsPath : String
  deriving Repr, DecidableEq

structure Config where
  port : String
  cacheTTL : Int
  cacheSize : Int
  indexPage : Bool
  monitoring : Bool
  routes : List (String × Route)
  deriving Repr, DecidableEq

def applyDefaults (c : Config) (rawHasIndexPage rawHasMonitoring : Bool) : Config :=
  { c with
    port := if c.port = "" then "8080" else c.port
    cacheTTL := if c.cacheTTL ≤ 0 then 300 else c.cacheTTL
    cacheSize := if c.cacheSize ≤ 0 then 1024 else c.cacheSize
    indexPage := if rawHasIndexPage then c.indexPage else true
    monitoring := if rawHasMonitoring then c.monitoring else true }

/-- Nanoseconds per second: Go's `time.Second` as a `time.Duration`. -/
def nsPerSec : Int := 1000000000

/-- Effective response TTL in seconds, translating both `getTTL`
(lines 993-998) and the inline computation in `ServeHTTP` (lines 883-886):
the route TTL when positive, otherwise the global `CacheTTL`. -/
def effectiveTTL (route : Route) (cfg : Config) : Int :=
  if route.ttl > 0 then route.ttl else cfg.cacheTTL

/-! ### `runWASM` exit interpretation (main.go lines 894-923)

After `instance.ExportedFunction("_start").Call(ctx)`, the code returns
`nil` (success) when `err == nil`, and also when `err` is a WASI exit error
whose `ExitCode()` is 0; every other error — a non-zero exit, a trap, or
any other failure — is returned as-is. -/

inductive CallOutcome where
  | ok
  | exitErr (code : Nat)
  | trapErr
  | otherErr
  deriving Repr, DecidableEq

/-- `true` exactly when `runWASM` returns a `nil` error for this outcome of
the `_start` call (lines 916-922). -/
def runCallSucceeds : CallOutcome → Bool
  | .ok => true
  | .exitErr code => code == 0
  | .trapErr => false
  | .otherErr => false

/-! ### Dispatcher (`Server.ServeHTTP`, main.go lines 818-891)

The module run itself is external (engine + instrument); its outcome enters
the model as a `ModuleRunOutcome`: the stdout bytes on success, or a failure
carrying whatever partial stdout the module wrote into the local buffer
before failing (load, compile, instantiate, trap and non-zero exit all
arrive here as the error return of `runWASM`). -/

/-- The response-cache fingerprint, line 852: `key := path + "?" + r.URL.RawQuery`. -/
def fingerprintKey (path rawQuery : String) : String :=
  path ++ "?" ++ rawQuery

inductive ModuleRunOutcome where
  | success (stdout : List Nat)
  | failure (partialStdout : List Nat)
  deriving Repr, DecidableEq

inductive Response where
  | ok (body : List Nat)
  | serverError
  deriving Repr, DecidableEq

/-- Result of one dispatch: the HTTP response, the response cache afterwards,
and whether the module was invoked. -/
structure DispatchResult where
  response : Response
  rc : ResponseCache
  invoked : Bool
  deriving Repr, DecidableEq

/-- Lines 852-891 of `ServeHTTP`, for a request that resolved to `route`:
consult the response cache when the route opts in, otherwise invoke the
module; on module error answer `http.Error(w, "internal server error", 500)`
without touching the response cache; on success store the output for the
effective TTL (seconds, scaled by `time.Second`) when the route opts in. -/
def serveRoute (cfg : Config) (route : Route) (path rawQuery : String)
    (run : ModuleRunOutcome) (now : Int) (rc : ResponseCache) : DispatchResult :=
  let key := fingerprintKey path rawQuery
  let cachedHit : Option (List Nat) :=
    if route.cache then rc.get key now else none
  match cachedHit with
  | some data => ⟨.ok data, rc, false⟩
  | none =>
      match run with
      | .failure _ => ⟨.serverError, rc, true⟩
      | .success output =>
          let rc' :=
            if route.cache then rc.set key output (effectiveTTL route cfg * nsPerSec) now
            else rc
          ⟨.ok output, rc', true⟩

/-! ### Built-in endpoint precedence (`ServeHTTP`, main.go lines 828-850)

The `switch` on the path runs before the route-table lookup; the `"/"` and
`"/monitoring"`/`"/stats"` cases fall through to the lookup when the
corresponding feature flag is off (no `return` is executed). -/

inductive Handler where
  | health
  | index
  | monitoring
  | wasmModule (r : Route)
  | notFound
  deriving Repr, DecidableEq

def routeRequest (cfg : Config) (path : String) : Handler :=
  if path = "/health" then .health
  else if path = "/" ∧ cfg.indexPage then .index
  else if (path = "/monitoring" ∨ path = "/stats") ∧ cfg.monitoring then .monitoring
  else
    match lookupA path cfg.routes with
    | some r => .wasmModule r
    | none => .notFound

/-! ### Request payload (`requestPayload`, `readRandomSeed`, main.go 317-321, 860-869, 971-977)

`r.URL.Query()` groups the query's key/value occurrences into a
`map[string][]string` preserving occurrence order per key; percent-decoding
is elided (the occurrence list is taken as already decoded).  The loop at
lines 861-866 keeps `vs[0]` — the first value — for every key with at least
one value.  The payload is marshalled as a JSON object with exactly the
fields `params` and `seed` (struct tags at lines 317-321). -/

/-- One step of the grouping performed by Go's query parser: append the
value to the key's slice, or start a new slice for an unseen key. -/
def addVal (acc : List (String × List String)) (kv : String × String) :
    List (String × List String) :=
  match lookupA kv.1 acc with
  | some vs => insertA kv.1 (vs ++ [kv.2]) acc
  | none => acc ++ [(kv.1, [kv.2])]

/-- `r.URL.Query()` on the ordered list of key/value occurrences. -/
def groupQuery (q : List (String × String)) : List (String × List String) :=
  q.foldl addVal []

/-- Lines 861-866: `for k, vs := range r.URL.Query() { if len(vs) > 0 { params[k] = vs[0] } }`. -/
def buildParams (g : List (String × List String)) : List (String × String) :=
  g.filterMap fun kv => kv.2.head?.map fun v => (kv.1, v)

inductive Json where
  | str (s : String)
  | num (n : Int)
  | obj (fields : List (String × Json))

/-- Field names of a JSON object. -/
def jsonFieldNames : Json → List String
  | .obj fields => fields.map Prod.fst
  | _ => []

/-- `json.Marshal(requestPayload{Params: params, Seed: seed})`: an object with
exactly the fields `params` (an object of string values) and `seed`. -/
def payloadJson (params : List (String × String)) (seed : Int) : Json :=
  .obj [("params", .obj (params.map fun kv => (kv.1, .str kv.2))), ("seed", .num seed)]

/-- Little-endian unsigned reading of a byte list, least significant byte
first (`binary.LittleEndian`). -/
def leU64 (bs : List Nat) : Nat :=
  bs.foldr (fun b acc => acc * 256 + b) 0

/-- Reinterpret an unsigned 64-bit value as a signed `int64` (two's
complement), as `binary.Read(..., &seed)` does for `seed int64`. -/
def toInt64 (u : Nat) : Int :=
  if u < 2 ^ 63 then (u : Int) else (u : Int) - 2 ^ 64

/-- `readRandomSeed` (lines 971-977) on the 8 bytes the random source
yields: decode them little-endian into a signed 64-bit integer. -/
def readRandomSeed (bs : List Nat) : Int :=
  toInt64 (leU64 bs)

/-! ### Interleavings of concurrent `ModuleCache.Get` callers (main.go 215-250)

For a fixed `wasmPath`, each caller of `Get` executes three atomic phases:
the lookup under `mu.RLock` (lines 216-224), the compile outside any lock
(lines 230-237), and the map update under `mu.Lock` (lines 239-248).  There
is no per-key in-flight marker and no re-check after taking the write lock.
Callers are interchangeable, so a system of `n` concurrent callers is
embedded as counters of callers per phase; a schedule is a list of atomic
actions, each advancing one caller of the matching phase (a no-op when no
caller is in that phase). `compiles` counts invocations of
`rt.CompileModule` for this key. -/

structure GetRace where
  cached : Bool
  compiles : Nat
  nStart : Nat
  nMissed : Nat
  nCompiled : Nat
  nDoneHit : Nat
  nDoneIns : Nat
  deriving Repr, DecidableEq

inductive Act where
  | check
  | compileAct
  | insertAct
  deriving Repr, DecidableEq

def raceStep (s : GetRace) : Act → GetRace
  | .check =>
      if s.nStart = 0 then s
      else if s.cached then
        { s with nStart := s.nStart - 1, nDoneHit := s.nDoneHit + 1 }
      else
        { s with nStart := s.nStart - 1, nMissed := s.nMissed + 1 }
  | .compileAct =>
      if s.nMissed = 0 then s
      else
        { s with nMissed := s.nMissed - 1, nCompiled := s.nCompiled + 1,
                 compiles := s.compiles + 1 }
  | .insertAct =>
      if s.nCompiled = 0 then s
      else
        { s with nCompiled := s.nCompiled - 1, nDoneIns := s.nDoneIns + 1,
                 cached := true }

def raceRun (sched : List Act) (s : GetRace) : GetRace :=
  sched.foldl raceStep s

def raceInit (n : Nat) : GetRace :=
  ⟨false, 0, n, 0, 0, 0, 0⟩

/-- All callers have returned from `Get`. -/
def allDone (s : GetRace) : Prop :=
  s.nStart = 0 ∧ s.nMissed = 0 ∧ s.nCompiled = 0

instance (s : GetRace) : Decidable (allDone s) := by
  unfold allDone; infer_instance

def raceInv (n : Nat) (s : GetRace) : Prop :=
  s.compiles = s.nCompiled + s.nDoneIns ∧
  (s.cached = true → 1 ≤ s.nDoneIns) ∧
  (1 ≤ s.nDoneHit → s.cached = true) ∧
  s.nStart + s.nMissed + s.nCompiled + s.nDoneHit + s.nDoneIns = n

theorem raceStep_inv {n : Nat} {s : GetRace} (a : Act) (h : raceInv n s) :
    raceInv n (raceStep s a) := by
  obtain ⟨cached, compiles, nStart, nMissed, nCompiled, nDoneHit, nDoneIns⟩ := s
  obtain ⟨h1, h2, h3, h4⟩ := h
  simp only [raceInv] at *
  cases a with
  | check =>
      simp only [raceStep]
      split_ifs with h0 hc <;> dsimp only
      · exact ⟨h1, h2, h3, h4⟩
      · exact ⟨h1, h2, fun _ => hc, by omega⟩
      · exact ⟨h1, h2, h3, by omega⟩
  | compileAct =>
      simp only [raceStep]
      split_ifs with h0 <;> dsimp only
      · exact ⟨h1, h2, h3, h4⟩
      · exact ⟨by omega, h2, h3, by omega⟩
  | insertAct =>
      simp only [raceStep]
      split_ifs with h0 <;> dsimp only
      · exact ⟨h1, h2, h3, h4⟩
      · exact ⟨by omega, fun _ => by omega, fun _ => rfl, by omega⟩

theorem raceRun_inv {n : Nat} (sched : List Act) {s : GetRace} (h : raceInv n s) :
    raceInv n (raceRun sched s) := by
  induction sched generalizing s with
  | nil => exact h
  | cons a t ih => exact ih (raceStep_inv a h)

/-- The schedule exhibiting a double compile: both callers pass the read-lock
check before either compile finishes. -/
def demoSched : List Act :=
  [.check, .check, .compileAct, .insertAct, .compileAct, .insertAct]

/-! ### Cache capacity under a trace of operations (for the capacity claim)

`NewServer` (lines 324-334) constructs both caches with `cfg.CacheSize`.
A trace interleaves the state-changing cache operations the server performs:
`ModuleCache.Get` steps and `ResponseCache.Set`; `ResponseCache.Get` reads
without mutating. -/

structure Caches where
  mc : ModuleCache
  rc : ResponseCache
  deriving Repr, DecidableEq

inductive SOp where
  | moduleGet (wasmPath : String) (mod : Nat)
  | respSet (key : String) (data : List Nat) (ttl now : Int)
  | respGet (key : String) (now : Int)
  deriving Repr, DecidableEq

def applyOp (c : Caches) : SOp → Caches
  | .moduleGet p mod => { c with mc := c.mc.getStep p mod }
  | .respSet k d ttl now => { c with rc := c.rc.set k d ttl now }
  | .respGet _ _ => c

def runOps (ops : List SOp) (c : Caches) : Caches :=
  ops.foldl applyOp c

def initCaches (size : Nat) : Caches :=
  ⟨⟨[], size⟩, ⟨[], size⟩⟩

/-! ### Capacity lemmas -/

theorem rcSet_length_le {r : ResponseCache} (k : String) (d : List Nat) (ttl now : Int)
    (hlen : r.cache.length ≤ r.size) (hsz : 1 ≤ r.size) :
    ((r.set k d ttl now)).cache.length ≤ r.size := by
  unfold ResponseCache.set
  by_cases hfull : r.cache.length ≥ r.size
  · have heq : r.cache.length = r.size := le_antisymm hlen hfull
    have htail : r.cache.tail.length = r.cache.length - 1 := List.length_tail _
    have := length_insertA_le k (⟨d, now + ttl⟩ : CachedResponse) r.cache.tail
    simp only [hfull, if_pos]
    omega
  · have := length_insertA_le k (⟨d, now + ttl⟩ : CachedResponse) r.cache
    simp only [hfull, if_neg, if_false]
    omega

theorem mcInsert_length_le {m : ModuleCache} (p : String) (mod : Nat)
    (hlen : m.cache.length ≤ m.size) (hsz : 1 ≤ m.size) :
    (m.insert p mod).cache.length ≤ m.size := by
  unfold ModuleCache.insert
  by_cases hfull : m.cache.length ≥ m.size
  · have heq : m.cache.length = m.size := le_antisymm hlen hfull
    have htail : m.cache.tail.length = m.cache.length - 1 := List.length_tail _
    have := length_insertA_le p mod m.cache.tail
    simp only [hfull, if_pos]
    omega
  · have := length_insertA_le p mod m.cache
    simp only [hfull, if_neg, if_false]
    omega

/-- Trace invariant: both caches carry the configured size and respect it. -/
def cachesInv (size : Nat) (c : Caches) : Prop :=
  c.mc.size = size ∧ c.rc.size = size ∧
  c.mc.cache.length ≤ size ∧ c.rc.cache.length ≤ size

theorem applyOp_inv {size : Nat} {c : Caches} (op : SOp) (hsz : 1 ≤ size)
    (h : cachesInv size c) : cachesInv size (applyOp c op) := by
  obtain ⟨hm, hr, hml, hrl⟩ := h
  cases op with
  | moduleGet p mod =>
      refine ⟨?_, hr, ?_, hrl⟩
      · show (c.mc.getStep p mod).size = size
        unfold ModuleCache.getStep
        cases lookupA p c.mc.cache with
        | some m => exact hm
        | none => exact hm
      · show (c.mc.getStep p mod).cache.length ≤ size
        unfold ModuleCache.getStep
        cases lookupA p c.mc.cache with
        | some m => exact hml
        | none =>
            show (c.mc.insert p mod).cache.length ≤ size
            have hml' : c.mc.cache.length ≤ c.mc.size := by omega
            have hins := mcInsert_length_le p mod hml' (by omega)
            omega
  | respSet k d ttl now =>
      refine ⟨hm, ?_, hml, ?_⟩
      · show (c.rc.set k d ttl now).size = size
        exact hr
      · show (c.rc.set k d ttl now).cache.length ≤ size
        have hrl' : c.rc.cache.length ≤ c.rc.size := by omega
        have hset := rcSet_length_le k d ttl now hrl' (by omega)
        omega
  | respGet k now => exact ⟨hm, hr, hml, hrl⟩

theorem runOps_inv {size : Nat} (ops : List SOp) {c : Caches} (hsz : 1 ≤ size)
    (h : cachesInv size c) : cachesInv size (runOps ops c) := by
  induction ops generalizing c with
  | nil => exact h
  | cons op t ih => exact ih (applyOp_inv op hsz h)

/-! ### Query-grouping lemmas (for the payload claim) -/

theorem lookupA_insertA {α : Type} (k k' : String) (v : α) (l : List (String × α)) :
    lookupA k (insertA k' v l) = if k' = k then some v else lookupA k l := by
  induction l with
  | nil => by_cases h : k' = k <;> simp [insertA, lookupA, h]
  | cons hd t ih =>
      obtain ⟨k₀, v₀⟩ := hd
      by_cases h0 : k₀ = k'
      · subst h0
        by_cases h1 : k₀ = k <;> simp [insertA, lookupA, h1]
      · by_cases h1 : k₀ = k
        · subst h1
          have hne : ¬ (k' = k₀) := fun he => h0 he.symm
          simp [insertA, h0, lookupA, hne]
        · simp [insertA, h0, lookupA, h1, ih]

theorem lookupA_append_single {α : Type} (k k' : String) (w : α) (l : List (String × α)) :
    lookupA k (l ++ [(k', w)]) =
      match lookupA k l with
      | some v => some v
      | none => if k' = k then some w else none := by
  induction l with
  | nil => simp [lookupA]
  | cons h t ih =>
      obtain ⟨k₀, v₀⟩ := h
      by_cases hk : k₀ = k <;> simp [lookupA, hk, ih]

/-- The values carried by key `k` among the query occurrences, in order. -/
def collect (k : String) (q : List (String × String)) : List String :=
  q.filterMap fun kv => if kv.1 = k then some kv.2 else none

theorem collect_head_eq_lookupA (k : String) (q : List (String × String)) :
    (collect k q).head? = lookupA k q := by
  induction q with
  | nil => simp [collect, lookupA]
  | cons h t ih =>
      obtain ⟨k₀, v₀⟩ := h
      by_cases hk : k₀ = k
      · simp [collect, lookupA, hk, ih]
      · simp only [collect, lookupA, hk] at ih ⊢
        simp [hk, ih]

theorem lookupA_foldl_addVal (q : List (String × String))
    (acc : List (String × List String)) (k : String) :
    lookupA k (q.foldl addVal acc) =
      match lookupA k acc with
      | some vs => some (vs ++ collect k q)
      | none => if collect k q = [] then none else some (collect k q) := by
  induction q generalizing acc with
  | nil =>
      cases hl : lookupA k acc <;> simp [collect, hl]
  | cons h t ih =>
      obtain ⟨k₀, v₀⟩ := h
      simp only [List.foldl_cons]
      rw [ih]
      unfold addVal
      by_cases hk : k₀ = k
      · subst hk
        cases hl : lookupA k₀ acc with
        | some vs =>
            simp only [hl, lookupA_insertA, if_pos rfl, collect]
            simp
        | none =>
            rw [lookupA_append_single]
            simp only [hl]
            simp [collect]
      · cases hl : lookupA k₀ acc with
        | some vs =>
            have : lookupA k (insertA k₀ (vs ++ [v₀]) acc) = lookupA k acc :=
              by rw [lookupA_insertA, if_neg hk]
            rw [this]
            have hc : collect k ((k₀, v₀) :: t) = collect k t := by simp [collect, hk]
            cases hl' : lookupA k acc <;> simp [hc]
        | none =>
            rw [lookupA_append_single]
            have hc : collect k ((k₀, v₀) :: t) = collect k t := by simp [collect, hk]
            cases hl' : lookupA k acc <;> simp [hk, hc]

theorem buildParams_lookup (g : List (String × List String)) (k : String)
    (vs : List String) (v : String) (hg : lookupA k g = some vs)
    (hv : vs.head? = some v) :
    lookupA k (buildParams g) = some v := by
  induction g with
  | nil => simp [lookupA] at hg
  | cons h t ih =>
      obtain ⟨k₀, vs₀⟩ := h
      by_cases hk : k₀ = k
      · subst hk
        have hg' : vs₀ = vs := by simpa [lookupA] using hg
        subst hg'
        simp [buildParams, List.filterMap_cons, hv, lookupA]
      · have hg' : lookupA k t = some vs := by simpa [lookupA, hk] using hg
        have h2 := ih hg'
        cases hh : vs₀.head? with
        | none =>
            simpa [buildParams, List.filterMap_cons, hh] using h2
        | some w =>
            simp only [buildParams, List.filterMap_cons, hh, Option.map_some] at h2 ⊢
            simpa [lookupA, hk, buildParams] using h2

/-- First occurrence of key `k` in the raw occurrence list reaches `params`:
the value `Query()` groups first is the one `params[k] = vs[0]` keeps. -/
theorem firstValueWins (q : List (String × String)) (k v : String)
    (h : lookupA k q = some v) :
    lookupA k (buildParams (groupQuery q)) = some v := by
  have hcol : (collect k q).head? = some v := by
    rw [collect_head_eq_lookupA]; exact h
  have hgq : lookupA k (groupQuery q) = some (collect k q) := by
    unfold groupQuery
    rw [lookupA_foldl_addVal]
    simp only [lookupA]
    cases hc : collect k q with
    | nil => rw [hc] at hcol; simp at hcol
    | cons a l => simp
  exact buildParams_lookup _ k _ v hgq hcol

/-! ### Dispatch lemmas -/

theorem get_set_self (rc : ResponseCache) (k : String) (d : List Nat) (ttl now t : Int) :
    (rc.set k d ttl now).get k t = if t > now + ttl then none else some d := by
  unfold ResponseCache.get
  have hc : (rc.set k d ttl now).cache =
      insertA k ⟨d, now + ttl⟩
        (if rc.cache.length ≥ rc.size then rc.cache.tail else rc.cache) := rfl
  rw [hc, lookupA_insertA_self]

theorem serveRoute_success_cacheable (cfg : Config) (route : Route)
    (path rq : String) (out : List Nat) (now : Int) (rc : ResponseCache)
    (hc : route.cache = true)
    (hmiss : rc.get (fingerprintKey path rq) now = none) :
    serveRoute cfg route path rq (.success out) now rc =
      ⟨.ok out, rc.set (fingerprintKey path rq) out (effectiveTTL route cfg * nsPerSec) now,
        true⟩ := by
  unfold serveRoute
  simp [hc, hmiss]

theorem serveRoute_hit (cfg : Config) (route : Route) (path rq : String)
    (run : ModuleRunOutcome) (now : Int) (rc : ResponseCache) (d : List Nat)
    (hc : route.cache = true)
    (hhit : rc.get (fingerprintKey path rq) now = some d) :
    serveRoute cfg route path rq run now rc = ⟨.ok d, rc, false⟩ := by
  unfold serveRoute
  simp [hc, hhit]

/-! ## Claims -/

/-- Claim C1, counterexample: two concurrent `ModuleCache.Get` callers for the
same `wasmPath`, both passing the read-locked lookup (the first two schedule
actions) before any compile completes, each invoke `CompileModule`: the final
compile count is 2, not exactly 1 as claimed.  `ModuleCache.Get` has no
single-flight marker and does not re-check the map under the write lock. -/
theorem doubleCompile_possible :
    (raceRun demoSched (raceInit 2)).compiles = 2 ∧
    allDone (raceRun demoSched (raceInit 2)) ∧
    demoSched.take 2 = [Act.check, Act.check] ∧
    ¬ (raceRun demoSched (raceInit 2)).compiles = 1 := by
  decide

/-- Claim C1, amended: concurrent `Get` callers for the same key are not
single-flighted.  In every interleaving of `n` concurrent callers starting
from a cache without the key, the engine compile runs at most once per
caller (at most `n` times) and, once all callers have returned, at least
once — but not necessarily exactly once. -/
theorem compile_count_bounds (n : Nat) (sched : List Act) (hn : 1 ≤ n) :
    (raceRun sched (raceInit n)).compiles ≤ n ∧
    (allDone (raceRun sched (raceInit n)) →
      1 ≤ (raceRun sched (raceInit n)).compiles) := by
  have h0 : raceInv n (raceInit n) := by
    refine ⟨rfl, ?_, ?_, ?_⟩
    · intro h; simp [raceInit] at h
    · intro h; simp [raceInit] at h
    · show n + 0 + 0 + 0 + 0 = n; omega
  have hinv := raceRun_inv sched h0
  obtain ⟨h1, h2, h3, h4⟩ := hinv
  constructor
  · omega
  · intro hd
    obtain ⟨d1, d2, d3⟩ := hd
    by_cases hins : 1 ≤ (raceRun sched (raceInit n)).nDoneIns
    · omega
    · have hhit : 1 ≤ (raceRun sched (raceInit n)).nDoneHit := by omega
      have := h2 (h3 hhit)
      omega

/-- Claim C1, witness for the amended theorem at the concrete double-compile
schedule with two callers. -/
theorem compile_count_bounds_witness :
    (raceRun demoSched (raceInit 2)).compiles ≤ 2 ∧
    (allDone (raceRun demoSched (raceInit 2)) →
      1 ≤ (raceRun demoSched (raceInit 2)).compiles) :=
  compile_count_bounds 2 demoSched (by decide)

/-- Claim C2, counterexample: `ResponseCache.Set` with `ttl = 0` is not a
no-op — on the empty cache it inserts an entry (`expiresAt = now`), so the
cache contents change. -/
theorem set_ttl_zero_not_noop :
    ((⟨[], 4⟩ : ResponseCache).set "k" [1] 0 10).cache = [("k", ⟨[1], 10⟩)] ∧
    ((⟨[], 4⟩ : ResponseCache).set "k" [1] 0 10).cache ≠
      (⟨[], 4⟩ : ResponseCache).cache := by
  constructor
  · decide
  · decide

/-- Claim C2, amended: `Set` with `ttl = 0` inserts (or replaces) an entry
whose `expiresAt` equals the insertion time — it is not a no-op — but the
entry is already stale: a `Get` for the key at any strictly later time
misses. -/
theorem set_ttl_zero_inserts_stale (rc : ResponseCache) (k : String)
    (d : List Nat) (now t : Int) :
    lookupA k (rc.set k d 0 now).cache = some ⟨d, now⟩ ∧
    (now < t → (rc.set k d 0 now).get k t = none) := by
  have hl : lookupA k (rc.set k d 0 now).cache = some ⟨d, now + 0⟩ := by
    unfold ResponseCache.set
    exact lookupA_insertA_self ..
  have hl' : lookupA k (rc.set k d 0 now).cache = some ⟨d, now⟩ := by
    simpa using hl
  refine ⟨hl', ?_⟩
  intro ht
  have hg := get_set_self rc k d 0 now t
  rw [hg, if_pos (by omega)]

/-- Claim C2, witness for the amended theorem on a concrete cache. -/
theorem set_ttl_zero_inserts_stale_witness :
    lookupA "k" ((⟨[], 4⟩ : ResponseCache).set "k" [1] 0 10).cache = some ⟨[1], 10⟩ ∧
    ((⟨[], 4⟩ : ResponseCache).set "k" [1] 0 10).get "k" 11 = none :=
  ⟨(set_ttl_zero_inserts_stale ⟨[], 4⟩ "k" [1] 10 11).1,
   (set_ttl_zero_inserts_stale ⟨[], 4⟩ "k" [1] 10 11).2 (by decide)⟩

/-- Claim C4, counterexample: at the boundary `now = expiresAt` the code's
`ResponseCache.Get` returns a hit (`time.Now().After(expiresAt)` is false at
equality), although `now < expires_at` fails — the claimed "miss whenever
`now >= expires_at`" is wrong at equality. -/
theorem get_at_expiry_hit :
    (⟨[("k", ⟨[7], 5⟩)], 4⟩ : ResponseCache).get "k" 5 = some [7] ∧
    ¬ ((5 : Int) < 5) := by
  constructor
  · decide
  · decide

/-- Claim C4, amended: `Get(k)` at time `now` returns the stored bytes if
and only if an entry for `k` exists and `now ≤ expires_at`; it misses only
when the entry is absent or `now > expires_at`. -/
theorem get_iff_le_expiresAt (rc : ResponseCache) (k : String) (now : Int)
    (d : List Nat) :
    rc.get k now = some d ↔
      ∃ cr, lookupA k rc.cache = some cr ∧ cr.data = d ∧ now ≤ cr.expiresAt := by
  unfold ResponseCache.get
  cases hl : lookupA k rc.cache with
  | none => simp
  | some cr =>
      dsimp only
      by_cases h : now > cr.expiresAt
      · rw [if_pos h]
        constructor
        · intro hx; exact absurd hx (by simp)
        · rintro ⟨cr', hcr', hd, hle⟩
          obtain rfl : cr = cr' := by injection hcr'
          omega
      · rw [if_neg h]
        constructor
        · intro hx
          obtain rfl : cr.data = d := by injection hx
          exact ⟨cr, rfl, rfl, by omega⟩
        · rintro ⟨cr', hcr', hd, hle⟩
          obtain rfl : cr = cr' := by injection hcr'
          rw [hd]

/-- A cacheable route with `ttl = 0`, as `/fibonacci` would be with its
route-level TTL removed. -/
def fibRoute : Route := ⟨"instruments/fibonacci.wasm", true, 0, "", ""⟩

/-- The configuration obtained by `LoadConfig` from a file that sets
`cache_ttl = 0` (and leaves port, cache_size, index_page, monitoring
unset), with one cacheable route. -/
def zeroTTLConfig : Config :=
  applyDefaults ⟨"", 0, 0, false, false, [("/fib", fibRoute)]⟩ false false

/-- Claim C3, counterexample: with `cache_ttl = 0` in the file and
`route.ttl = 0`, `LoadConfig` turns the global TTL into 300, the effective
TTL is 300 (not 0), the response-cache write after a successful invocation
does insert an entry, and a second request 5 seconds later is served from
the response cache without invoking the module. -/
theorem cacheTTL_zero_counterexample :
    zeroTTLConfig.cacheTTL = 300 ∧
    effectiveTTL fibRoute zeroTTLConfig = 300 ∧
    (serveRoute zeroTTLConfig fibRoute "/fib" "" (.success [55]) 0
      ⟨[], 1024⟩).rc.cache ≠ [] ∧
    (serveRoute zeroTTLConfig fibRoute "/fib" "" (.success [99]) (5 * nsPerSec)
      (serveRoute zeroTTLConfig fibRoute "/fib" "" (.success [55]) 0
        ⟨[], 1024⟩).rc).invoked = false ∧
    (serveRoute zeroTTLConfig fibRoute "/fib" "" (.success [99]) (5 * nsPerSec)
      (serveRoute zeroTTLConfig fibRoute "/fib" "" (.success [55]) 0
        ⟨[], 1024⟩).rc).response = .ok [55] := by
  decide

/-- Claim C3, amended: when the configuration file sets `cache_ttl = 0`,
`LoadConfig` replaces it with the default 300, so with `route.ttl = 0` the
effective TTL is 300 seconds; the response-cache write after a successful
invocation stores the response, and a subsequent request within those 300
seconds is answered from the response cache without invoking the module. -/
theorem cacheTTL_zero_defaults (c : Config) (ri rm : Bool) (route : Route)
    (httl : c.cacheTTL = 0) (hrt : route.ttl = 0) (hc : route.cache = true) :
    (applyDefaults c ri rm).cacheTTL = 300 ∧
    effectiveTTL route (applyDefaults c ri rm) = 300 ∧
    (∀ (path rq : String) (out : List Nat) (run2 : ModuleRunOutcome)
      (now t : Int) (rc : ResponseCache),
      rc.get (fingerprintKey path rq) now = none →
      now ≤ t → t ≤ now + 300 * nsPerSec →
      serveRoute (applyDefaults c ri rm) route path rq run2 t
        (serveRoute (applyDefaults c ri rm) route path rq (.success out) now rc).rc =
      ⟨.ok out,
        (serveRoute (applyDefaults c ri rm) route path rq (.success out) now rc).rc,
        false⟩) := by
  have hT : (applyDefaults c ri rm).cacheTTL = 300 := by
    simp [applyDefaults, httl]
  have hE : effectiveTTL route (applyDefaults c ri rm) = 300 := by
    unfold effectiveTTL
    rw [hrt, if_neg (by norm_num)]
    exact hT
  refine ⟨hT, hE, ?_⟩
  intro path rq out run2 now t rc hmiss h1 h2
  rw [serveRoute_success_cacheable _ _ _ _ _ _ _ hc hmiss]
  have hget : (rc.set (fingerprintKey path rq) out
      (effectiveTTL route (applyDefaults c ri rm) * nsPerSec) now).get
      (fingerprintKey path rq) t = some out := by
    rw [get_set_self, hE, if_neg (by omega)]
  exact serveRoute_hit _ _ _ _ _ _ _ _ hc hget

/-- Claim C3, witness for the amended theorem on a concrete configuration
and route. -/
theorem cacheTTL_zero_defaults_witness :
    (applyDefaults ⟨"", 0, 0, false, false, []⟩ false false).cacheTTL = 300 ∧
    effectiveTTL ⟨"f.wasm", true, 0, "", ""⟩
      (applyDefaults ⟨"", 0, 0, false, false, []⟩ false false) = 300 ∧
    (∀ (path rq : String) (out : List Nat) (run2 : ModuleRunOutcome)
      (now t : Int) (rc : ResponseCache),
      rc.get (fingerprintKey path rq) now = none →
      now ≤ t → t ≤ now + 300 * nsPerSec →
      serveRoute (applyDefaults ⟨"", 0, 0, false, false, []⟩ false false)
        ⟨"f.wasm", true, 0, "", ""⟩ path rq run2 t
        (serveRoute (applyDefaults ⟨"", 0, 0, false, false, []⟩ false false)
          ⟨"f.wasm", true, 0, "", ""⟩ path rq (.success out) now rc).rc =
      ⟨.ok out,
        (serveRoute (applyDefaults ⟨"", 0, 0, false, false, []⟩ false false)
          ⟨"f.wasm", true, 0, "", ""⟩ path rq (.success out) now rc).rc,
        false⟩) :=
  cacheTTL_zero_defaults ⟨"", 0, 0, false, false, []⟩ false false
    ⟨"f.wasm", true, 0, "", ""⟩ rfl rfl rfl

/-- Claim C5: the response-cache fingerprint is exactly
`route_path ++ "?" ++ raw_query` with the raw query used verbatim; an empty
query yields `path ++ "?"`; and a successful cacheable dispatch stores the
output under exactly that key. -/
theorem fingerprint_key_exact (cfg : Config) (route : Route) (path rq : String)
    (out : List Nat) (now : Int) (rc : ResponseCache)
    (hc : route.cache = true)
    (hmiss : rc.get (path ++ "?" ++ rq) now = none) :
    fingerprintKey path rq = path ++ "?" ++ rq ∧
    fingerprintKey path "" = path ++ "?" ∧
    lookupA (path ++ "?" ++ rq)
      (serveRoute cfg route path rq (.success out) now rc).rc.cache =
      some ⟨out, now + effectiveTTL route cfg * nsPerSec⟩ := by
  refine ⟨rfl, ?_, ?_⟩
  · show path ++ "?" ++ "" = path ++ "?"
    exact String.append_empty _
  · rw [serveRoute_success_cacheable cfg route path rq out now rc hc hmiss]
    exact lookupA_insertA_self ..

/-- Claim C5, witness at a concrete route, path and query on the empty
cache. -/
theorem fingerprint_key_exact_witness :
    fingerprintKey "/p" "a=1" = "/p" ++ "?" ++ "a=1" ∧
    fingerprintKey "/p" "" = "/p" ++ "?" ∧
    lookupA ("/p" ++ "?" ++ "a=1")
      (serveRoute ⟨"8080", 300, 4, true, true, []⟩ ⟨"m.wasm", true, 0, "", ""⟩
        "/p" "a=1" (.success [1, 2]) 0 ⟨[], 4⟩).rc.cache =
      some ⟨[1, 2], 0 + effectiveTTL ⟨"m.wasm", true, 0, "", ""⟩
        ⟨"8080", 300, 4, true, true, []⟩ * nsPerSec⟩ :=
  fingerprint_key_exact ⟨"8080", 300, 4, true, true, []⟩ ⟨"m.wasm", true, 0, "", ""⟩
    "/p" "a=1" [1, 2] 0 ⟨[], 4⟩ rfl (by decide)

/-- Claim C6: the stdin payload is a JSON object with exactly the fields
`params` and `seed`; `params` keeps the first value of a repeated query
key; and the seed is the little-endian signed-64-bit reading of the 8 bytes
drawn (per request) from the random source: it is congruent to
`b0 + 2^8 b1 + ... + 2^56 b7` modulo `2^64` and lies in the `int64` range. -/
theorem payload_shape_params_seed :
    (∀ (p : List (String × String)) (s : Int),
      jsonFieldNames (payloadJson p s) = ["params", "seed"]) ∧
    (∀ (q : List (String × String)) (k v : String),
      lookupA k q = some v →
      lookupA k (buildParams (groupQuery q)) = some v) ∧
    (∀ b0 b1 b2 b3 b4 b5 b6 b7 : Nat,
      b0 < 256 → b1 < 256 → b2 < 256 → b3 < 256 →
      b4 < 256 → b5 < 256 → b6 < 256 → b7 < 256 →
      readRandomSeed [b0, b1, b2, b3, b4, b5, b6, b7] % 18446744073709551616 =
        ((b0 : Int) + 256 * b1 + 65536 * b2 + 16777216 * b3 +
          4294967296 * b4 + 1099511627776 * b5 + 281474976710656 * b6 +
          72057594037927936 * b7) % 18446744073709551616 ∧
      -9223372036854775808 ≤ readRandomSeed [b0, b1, b2, b3, b4, b5, b6, b7] ∧
      readRandomSeed [b0, b1, b2, b3, b4, b5, b6, b7] < 9223372036854775808) := by
  refine ⟨?_, ?_, ?_⟩
  · intro p s; rfl
  · intro q k v h; exact firstValueWins q k v h
  · intro b0 b1 b2 b3 b4 b5 b6 b7 h0 h1 h2 h3 h4 h5 h6 h7
    have hle : leU64 [b0, b1, b2, b3, b4, b5, b6, b7] =
        b0 + 256 * (b1 + 256 * (b2 + 256 * (b3 + 256 * (b4 + 256 *
          (b5 + 256 * (b6 + 256 * b7)))))) := by
      simp only [leU64, List.foldr_cons, List.foldr_nil]
      ring
    unfold readRandomSeed toInt64
    rw [hle]
    have p63 : (2 : Nat) ^ 63 = 9223372036854775808 := by norm_num
    have p64 : (2 : Int) ^ 64 = 18446744073709551616 := by norm_num
    rw [p63, p64]
    split_ifs with hlt
    · refine ⟨?_, ?_, ?_⟩ <;> push_cast <;> omega
    · refine ⟨?_, ?_, ?_⟩ <;> push_cast <;> omega

/-- Claim C6, witness: a repeated query key keeps its first value, and the
all-ones byte string decodes to -1 (the int64 range and congruence hold). -/
theorem payload_shape_params_seed_witness :
    jsonFieldNames (payloadJson [("name", "Alice")] 7) = ["params", "seed"] ∧
    lookupA "a" (buildParams (groupQuery [("a", "1"), ("a", "2")])) = some "1" ∧
    (readRandomSeed [255, 255, 255, 255, 255, 255, 255, 255] % 18446744073709551616 =
      ((255 : Int) + 256 * 255 + 65536 * 255 + 16777216 * 255 +
        4294967296 * 255 + 1099511627776 * 255 + 281474976710656 * 255 +
        72057594037927936 * 255) % 18446744073709551616 ∧
      -9223372036854775808 ≤ readRandomSeed [255, 255, 255, 255, 255, 255, 255, 255] ∧
      readRandomSeed [255, 255, 255, 255, 255, 255, 255, 255] < 9223372036854775808) :=
  ⟨payload_shape_params_seed.1 [("name", "Alice")] 7,
   payload_shape_params_seed.2.1 [("a", "1"), ("a", "2")] "a" "1" (by decide),
   payload_shape_params_seed.2.2 255 255 255 255 255 255 255 255
     (by decide) (by decide) (by decide) (by decide)
     (by decide) (by decide) (by decide) (by decide)⟩

/-- Claim C7: when the module invocation fails (load, compile, instantiate,
trap or non-zero exit all surface as the error return of `runWASM`), the
dispatcher answers the fixed error response, leaves the response cache
untouched, and the result does not depend on whatever partial stdout the
module wrote — no stdout bytes are returned. -/
theorem failure_no_cache_no_output (cfg : Config) (route : Route)
    (path rq : String) (pb1 pb2 : List Nat) (now : Int) (rc : ResponseCache)
    (hnohit : route.cache = false ∨ rc.get (fingerprintKey path rq) now = none) :
    serveRoute cfg route path rq (.failure pb1) now rc = ⟨.serverError, rc, true⟩ ∧
    serveRoute cfg route path rq (.failure pb1) now rc =
      serveRoute cfg route path rq (.failure pb2) now rc := by
  have hfail : ∀ pb : List Nat,
      serveRoute cfg route path rq (.failure pb) now rc = ⟨.serverError, rc, true⟩ := by
    intro pb
    unfold serveRoute
    rcases hnohit with h | h
    · simp [h]
    · cases hcc : route.cache
      · simp [hcc]
      · simp [hcc, h]
  exact ⟨hfail pb1, (hfail pb1).trans (hfail pb2).symm⟩

/-- Claim C7, witness: a failing invocation on a cacheable route with a cold
cache, for two different partial outputs. -/
theorem failure_no_cache_no_output_witness :
    serveRoute ⟨"8080", 300, 4, true, true, []⟩ ⟨"m.wasm", true, 60, "", ""⟩
      "/p" "x=1" (.failure [9, 9]) 0 ⟨[], 4⟩ =
      ⟨.serverError, ⟨[], 4⟩, true⟩ ∧
    serveRoute ⟨"8080", 300, 4, true, true, []⟩ ⟨"m.wasm", true, 60, "", ""⟩
      "/p" "x=1" (.failure [9, 9]) 0 ⟨[], 4⟩ =
      serveRoute ⟨"8080", 300, 4, true, true, []⟩ ⟨"m.wasm", true, 60, "", ""⟩
        "/p" "x=1" (.failure []) 0 ⟨[], 4⟩ :=
  failure_no_cache_no_output ⟨"8080", 300, 4, true, true, []⟩
    ⟨"m.wasm", true, 60, "", ""⟩ "/p" "x=1" [9, 9] [] 0 ⟨[], 4⟩
    (Or.inr (by decide))

/-- Claim C8: `runWASM` treats a clean WASI exit with code 0 as success (it
returns `nil` even though the runtime surfaces the exit as an error value),
and a WASI exit with any non-zero code — like a trap or any other call
error — as a failure. -/
theorem exit_zero_success_nonzero_failure :
    runCallSucceeds (.exitErr 0) = true ∧
    runCallSucceeds .ok = true ∧
    runCallSucceeds .trapErr = false ∧
    (∀ code : Nat, code ≠ 0 → runCallSucceeds (.exitErr code) = false) := by
  refine ⟨rfl, rfl, rfl, ?_⟩
  intro code hcode
  simp [runCallSucceeds, hcode]

/-- Claim C8, witness at exit code 1. -/
theorem exit_zero_success_nonzero_failure_witness :
    runCallSucceeds (.exitErr 0) = true ∧
    runCallSucceeds .ok = true ∧
    runCallSucceeds .trapErr = false ∧
    runCallSucceeds (.exitErr 1) = false :=
  ⟨exit_zero_success_nonzero_failure.1,
   exit_zero_success_nonzero_failure.2.1,
   exit_zero_success_nonzero_failure.2.2.1,
   exit_zero_success_nonzero_failure.2.2.2 1 (by decide)⟩

/-- Claim C9: starting from the freshly constructed caches, after any
sequence of cache operations both the compiled-module cache and the
response cache hold at most `cache_size` entries — each insert at capacity
removes one entry first, inside the same locked update. -/
theorem caches_bounded (size : Nat) (hsz : 1 ≤ size) (ops : List SOp) :
    (runOps ops (initCaches size)).mc.cache.length ≤ size ∧
    (runOps ops (initCaches size)).rc.cache.length ≤ size := by
  have h := runOps_inv (c := initCaches size) ops hsz
    ⟨rfl, rfl, Nat.zero_le _, Nat.zero_le _⟩
  exact ⟨h.2.2.1, h.2.2.2⟩

/-- Claim C9, witness: capacity 1 with three module compilations and two
response inserts. -/
theorem caches_bounded_witness :
    (runOps [.moduleGet "a.wasm" 1, .moduleGet "b.wasm" 2, .moduleGet "c.wasm" 3,
       .respSet "k1" [7] 300 0, .respSet "k2" [8] 300 0]
      (initCaches 1)).mc.cache.length ≤ 1 ∧
    (runOps [.moduleGet "a.wasm" 1, .moduleGet "b.wasm" 2, .moduleGet "c.wasm" 3,
       .respSet "k1" [7] 300 0, .respSet "k2" [8] 300 0]
      (initCaches 1)).rc.cache.length ≤ 1 :=
  caches_bounded 1 (by decide)
    [.moduleGet "a.wasm" 1, .moduleGet "b.wasm" 2, .moduleGet "c.wasm" 3,
     .respSet "k1" [7] 300 0, .respSet "k2" [8] 300 0]

/-- Claim C10: built-in endpoints take precedence over the route table:
`/health` is always answered by the health handler; `/` by the index
handler when `index_page` is enabled; `/monitoring` and `/stats` by the
monitoring handler when `monitoring` is enabled — so a route configured at
any of these paths never has its module invoked for such requests. -/
theorem builtin_precedence (cfg : Config) :
    routeRequest cfg "/health" = .health ∧
    (cfg.indexPage = true → routeRequest cfg "/" = .index) ∧
    (cfg.monitoring = true → routeRequest cfg "/monitoring" = .monitoring) ∧
    (cfg.monitoring = true → routeRequest cfg "/stats" = .monitoring) ∧
    (∀ r : Route,
      routeRequest cfg "/health" ≠ .wasmModule r ∧
      (cfg.indexPage = true → routeRequest cfg "/" ≠ .wasmModule r) ∧
      (cfg.monitoring = true → routeRequest cfg "/monitoring" ≠ .wasmModule r) ∧
      (cfg.monitoring = true → routeRequest cfg "/stats" ≠ .wasmModule r)) := by
  have hh : routeRequest cfg "/health" = .health := by
    unfold routeRequest
    rw [if_pos rfl]
  have hi : cfg.indexPage = true → routeRequest cfg "/" = .index := by
    intro h
    unfold routeRequest
    rw [if_neg (by decide), if_pos ⟨rfl, h⟩]
  have hm1 : cfg.monitoring = true → routeRequest cfg "/monitoring" = .monitoring := by
    intro h
    unfold routeRequest
    rw [if_neg (by decide), if_neg (fun hx => absurd hx.1 (by decide)),
      if_pos ⟨Or.inl rfl, h⟩]
  have hm2 : cfg.monitoring = true → routeRequest cfg "/stats" = .monitoring := by
    intro h
    unfold routeRequest
    rw [if_neg (by decide), if_neg (fun hx => absurd hx.1 (by decide)),
      if_pos ⟨Or.inr rfl, h⟩]
  refine ⟨hh, hi, hm1, hm2, ?_⟩
  intro r
  refine ⟨?_, ?_, ?_, ?_⟩
  · rw [hh]; intro hx; exact Handler.noConfusion hx
  · intro h; rw [hi h]; intro hx; exact Handler.noConfusion hx
  · intro h; rw [hm1 h]; intro hx; exact Handler.noConfusion hx
  · intro h; rw [hm2 h]; intro hx; exact Handler.noConfusion hx

/-- Claim C10, witness: a configuration that enables both flags and
configures a module route at every built-in path. -/
theorem builtin_precedence_witness :
    routeRequest
      ⟨"8080", 300, 4, true, true,
        [("/health", ⟨"m.wasm", false, 0, "", ""⟩),
         ("/", ⟨"m.wasm", false, 0, "", ""⟩),
         ("/monitoring", ⟨"m.wasm", false, 0, "", ""⟩),
         ("/stats", ⟨"m.wasm", false, 0, "", ""⟩)]⟩ "/health" = .health ∧
    routeRequest
      ⟨"8080", 300, 4, true, true,
        [("/health", ⟨"m.wasm", false, 0, "", ""⟩),
         ("/", ⟨"m.wasm", false, 0, "", ""⟩),
         ("/monitoring", ⟨"m.wasm", false, 0, "", ""⟩),
         ("/stats", ⟨"m.wasm", false, 0, "", ""⟩)]⟩ "/" = .index ∧
    routeRequest
      ⟨"8080", 300, 4, true, true,
        [("/health", ⟨"m.wasm", false, 0, "", ""⟩),
         ("/", ⟨"m.wasm", false, 0, "", ""⟩),
         ("/monitoring", ⟨"m.wasm", false, 0, "", ""⟩),
         ("/stats", ⟨"m.wasm", false, 0, "", ""⟩)]⟩ "/monitoring" = .monitoring ∧
    routeRequest
      ⟨"8080", 300, 4, true, true,
        [("/health", ⟨"m.wasm", false, 0, "", ""⟩),
         ("/", ⟨"m.wasm", false, 0, "", ""⟩),
         ("/monitoring", ⟨"m.wasm", false, 0, "", ""⟩),
         ("/stats", ⟨"m.wasm", false, 0, "", ""⟩)]⟩ "/stats" = .monitoring ∧
    routeRequest
      ⟨"8080", 300, 4, true, true,
        [("/health", ⟨"m.wasm", false, 0, "", ""⟩),
         ("/", ⟨"m.wasm", false, 0, "", ""⟩),
         ("/monitoring", ⟨"m.wasm", false, 0, "", ""⟩),
         ("/stats", ⟨"m.wasm", false, 0, "", ""⟩)]⟩ "/health" ≠
      .wasmModule ⟨"m.wasm", false, 0, "", ""⟩ :=
  ⟨(builtin_precedence _).1,
   (builtin_precedence _).2.1 rfl,
   (builtin_precedence _).2.2.1 rfl,
   (builtin_precedence _).2.2.2.1 rfl,
   ((builtin_precedence _).2.2.2.2 ⟨"m.wasm", false, 0, "", ""⟩).1⟩

end WASIO
